import Mathlib

/-!
Verification development for the YouTube transcript fetcher of this repository
(src/018_ai_agents_003/tools/normal/tools.py and
src/018_ai_agents_003/tools/custom/tools.py).

The fetcher is embedded shallowly: the two outbound HTTP calls are modelled as
an environment supplying the response of each call, and the pure processing
steps (regex scrape of the caption-track marker, JSON decoding, track
selection, XML extraction, message rendering) are translated into executable
Lean functions.  External library behaviour that the code depends on
(json.loads, xml.etree.ElementTree.fromstring, the regex engine, pydantic
validation, httpx status handling) is modelled by concrete executable
functions whose doc comments state what is being modelled and which
simplifications were taken; no claim below depends on the simplified corners.
-/

set_option autoImplicit false

namespace Transcript

/-! ## Python string helpers -/

/-- Whitespace characters removed by the Python method str.strip. -/
def isPySpace (c : Char) : Bool :=
  c = ' ' || c = '\t' || c = '\n' || c = '\r' || c = '\x0b' || c = '\x0c'

/-- Model of the Python method str.strip with no arguments: removes leading
and trailing whitespace. -/
def pyStrip (s : String) : String :=
  String.mk (((s.toList.dropWhile isPySpace).reverse.dropWhile isPySpace).reverse)

/-! ## JSON values

Model of the values produced by json.loads for the caption-track data.
Numbers are represented as rationals; object fields keep their textual order
and duplicate keys are resolved by taking the last occurrence, as the Python
dict construction does. -/

inductive Json where
  | null : Json
  | bool (b : Bool) : Json
  | num (q : Rat) : Json
  | str (s : String) : Json
  | arr (items : List Json) : Json
  | obj (fields : List (String × Json)) : Json

/-- Lookup in a JSON object field list; the last binding of a key wins,
matching how repeated keys behave when Python builds the dict. -/
def lookupLast (fields : List (String × Json)) (key : String) : Option Json :=
  match fields with
  | [] => none
  | (k, v) :: rest =>
    match lookupLast rest key with
    | some r => some r
    | none => if k = key then some v else none

/-- Model of the Python comparison value == someString for a value obtained
from dict.get: only a string value can compare equal to a string. -/
def jsonIsStrEq (v : Option Json) (s : String) : Bool :=
  match v with
  | some (.str t) => t = s
  | _ => false

/-- Model of Python truthiness for JSON-decoded values. -/
def pyTruthy : Json → Bool
  | .null => false
  | .bool b => b
  | .num q => q != 0
  | .str s => s != ""
  | .arr items => !items.isEmpty
  | .obj fields => !fields.isEmpty

/-- Recognizer used to state that every decoded caption track is a JSON
object, which is the shape the code expects. -/
def isObjB : Json → Bool
  | .obj _ => true
  | _ => false

/-! ## JSON text decoding

Model of json.loads restricted to what the fetcher needs.  Supported:
null, booleans, strict JSON numbers, strings with the standard escapes,
arrays and objects, with the JSON whitespace rules and a full-consumption
check.  Simplifications relative to CPython json.loads, none of which any
claim depends on: the NaN and Infinity extensions are rejected, and a
\uXXXX escape denoting a surrogate half decodes to a placeholder character
instead of pairing. -/

def jsonWsCh (c : Char) : Bool :=
  c = ' ' || c = '\t' || c = '\n' || c = '\r'

def skipWs (cs : List Char) : List Char := cs.dropWhile jsonWsCh

def isDigitCh (c : Char) : Bool := '0' ≤ c && c ≤ '9'

def digitVal (c : Char) : Nat := c.toNat - '0'.toNat

def digitsToNat (ds : List Char) : Nat := ds.foldl (fun a c => a * 10 + digitVal c) 0

/-- Value of a hexadecimal digit, comparing character codes directly:
48-57 are the decimal digits, 97-102 the lowercase and 65-70 the uppercase
hex letters. -/
def hexVal (c : Char) : Option Nat :=
  let n := c.toNat
  if 48 ≤ n ∧ n ≤ 57 then some (n - 48)
  else if 97 ≤ n ∧ n ≤ 102 then some (n - 87)
  else if 65 ≤ n ∧ n ≤ 70 then some (n - 55)
  else none

/-- Decode the body of a JSON string after the opening quote; returns the
decoded characters and the remainder after the closing quote. -/
def parseJStringChars : List Char → Option (List Char × List Char)
  | [] => none
  | '"' :: rest => some ([], rest)
  | '\\' :: esc =>
    match esc with
    | 'n' :: r => (parseJStringChars r).map (fun p => ('\n' :: p.1, p.2))
    | 't' :: r => (parseJStringChars r).map (fun p => ('\t' :: p.1, p.2))
    | 'r' :: r => (parseJStringChars r).map (fun p => ('\r' :: p.1, p.2))
    | 'b' :: r => (parseJStringChars r).map (fun p => ('\x08' :: p.1, p.2))
    | 'f' :: r => (parseJStringChars r).map (fun p => ('\x0c' :: p.1, p.2))
    | '/' :: r => (parseJStringChars r).map (fun p => ('/' :: p.1, p.2))
    | '"' :: r => (parseJStringChars r).map (fun p => ('"' :: p.1, p.2))
    | '\\' :: r => (parseJStringChars r).map (fun p => ('\\' :: p.1, p.2))
    | 'u' :: h1 :: h2 :: h3 :: h4 :: r =>
      match hexVal h1, hexVal h2, hexVal h3, hexVal h4 with
      | some a, some b, some c, some d =>
        let code := ((a * 16 + b) * 16 + c) * 16 + d
        (parseJStringChars r).map (fun p => (Char.ofNat code :: p.1, p.2))
      | _, _, _, _ => none
    | _ => none
  | c :: rest =>
    if c.toNat < 0x20 then none
    else (parseJStringChars rest).map (fun p => (c :: p.1, p.2))

/-- Parse the fractional part of a JSON number, if present. -/
def parseJFrac (cs : List Char) : Option (List Char × List Char) :=
  match cs with
  | '.' :: r =>
    let p := List.span isDigitCh r
    if p.1.isEmpty then none else some (p.1, p.2)
  | _ => some ([], cs)

/-- Parse the exponent part of a JSON number, if present. -/
def parseJExp (cs : List Char) : Option (Int × List Char) :=
  match cs with
  | c :: r =>
    if c = 'e' || c = 'E' then
      match r with
      | '+' :: r2 =>
        let p := List.span isDigitCh r2
        if p.1.isEmpty then none else some ((digitsToNat p.1 : Int), p.2)
      | '-' :: r2 =>
        let p := List.span isDigitCh r2
        if p.1.isEmpty then none else some (-(digitsToNat p.1 : Int), p.2)
      | _ =>
        let p := List.span isDigitCh r
        if p.1.isEmpty then none else some ((digitsToNat p.1 : Int), p.2)
    else some (0, cs)
  | [] => some (0, [])

/-- Assemble a rational from sign, integer digits, fraction digits and
exponent. -/
def jsonNumVal (neg : Bool) (intDs fracDs : List Char) (e : Int) : Rat :=
  let mantissa : Nat := digitsToNat (intDs ++ fracDs)
  let shift : Int := e - (fracDs.length : Int)
  let base : Rat := (mantissa : Rat)
  let scaled : Rat :=
    if 0 ≤ shift then base * ((10 : Rat) ^ shift.toNat)
    else base / ((10 : Rat) ^ (-shift).toNat)
  if neg then -scaled else scaled

/-- Parse a strict JSON number (leading zeros rejected, as json.loads does). -/
def parseJNumber (cs : List Char) : Option (Rat × List Char) :=
  let signSplit : Bool × List Char :=
    match cs with
    | '-' :: r => (true, r)
    | _ => (false, cs)
  let neg := signSplit.1
  let cs1 := signSplit.2
  match cs1 with
  | [] => none
  | c :: _ =>
    if ¬ isDigitCh c then none
    else
      let p := List.span isDigitCh cs1
      if 1 < p.1.length && p.1.head? = some '0' then none
      else
        match parseJFrac p.2 with
        | none => none
        | some (fds, cs2) =>
          match parseJExp cs2 with
          | none => none
          | some (e, cs3) => some (jsonNumVal neg p.1 fds e, cs3)

mutual

/-- Fuel-indexed recursive-descent JSON value parsing; the fuel only bounds
recursion depth and is chosen generously by jsonParse. -/
def parseJValue : Nat → List Char → Option (Json × List Char)
  | 0, _ => none
  | fuel + 1, cs =>
    match skipWs cs with
    | 'n' :: 'u' :: 'l' :: 'l' :: r => some (.null, r)
    | 't' :: 'r' :: 'u' :: 'e' :: r => some (.bool true, r)
    | 'f' :: 'a' :: 'l' :: 's' :: 'e' :: r => some (.bool false, r)
    | '"' :: r => (parseJStringChars r).map (fun p => (.str (String.mk p.1), p.2))
    | '[' :: r => parseJArrayStart fuel r
    | '{' :: r => parseJObjStart fuel r
    | cs2 => (parseJNumber cs2).map (fun p => (.num p.1, p.2))

/-- Parse array items after the opening bracket. -/
def parseJArrayStart : Nat → List Char → Option (Json × List Char)
  | 0, _ => none
  | fuel + 1, cs =>
    match skipWs cs with
    | ']' :: r => some (.arr [], r)
    | cs2 =>
      match parseJValue fuel cs2 with
      | none => none
      | some (v, rest) => parseJArrayLoop fuel [v] rest

/-- Parse the remaining comma-separated array items. -/
def parseJArrayLoop : Nat → List Json → List Char → Option (Json × List Char)
  | 0, _, _ => none
  | fuel + 1, acc, cs =>
    match skipWs cs with
    | ']' :: r => some (.arr acc, r)
    | ',' :: r =>
      match parseJValue fuel r with
      | none => none
      | some (v, rest) => parseJArrayLoop fuel (acc ++ [v]) rest
    | _ => none

/-- Parse object members after the opening brace. -/
def parseJObjStart : Nat → List Char → Option (Json × List Char)
  | 0, _ => none
  | fuel + 1, cs =>
    match skipWs cs with
    | '}' :: r => some (.obj [], r)
    | '"' :: r =>
      match parseJStringChars r with
      | none => none
      | some (keyChars, afterKey) =>
        match skipWs afterKey with
        | ':' :: afterColon =>
          match parseJValue fuel afterColon with
          | none => none
          | some (v, rest) => parseJObjLoop fuel [(String.mk keyChars, v)] rest
        | _ => none
    | _ => none

/-- Parse the remaining comma-separated object members. -/
def parseJObjLoop : Nat → List (String × Json) → List Char → Option (Json × List Char)
  | 0, _, _ => none
  | fuel + 1, acc, cs =>
    match skipWs cs with
    | '}' :: r => some (.obj acc, r)
    | ',' :: r =>
      match skipWs r with
      | '"' :: r2 =>
        match parseJStringChars r2 with
        | none => none
        | some (keyChars, afterKey) =>
          match skipWs afterKey with
          | ':' :: afterColon =>
            match parseJValue fuel afterColon with
            | none => none
            | some (v, rest) => parseJObjLoop fuel (acc ++ [(String.mk keyChars, v)]) rest
          | _ => none
      | _ => none
    | _ => none

end

/-- Model of json.loads: parse a complete JSON document, requiring that only
whitespace remains after the value. -/
def jsonParse (s : String) : Option Json :=
  match parseJValue (2 * s.length + 8) s.toList with
  | some (v, rest) => if (skipWs rest).isEmpty then some v else none
  | none => none

/-! ## Caption-track marker scraping

Model of re.search applied to the pattern that both tool variants use to
locate the embedded caption-track JSON in the watch-page markup.  The
pattern is the literal marker followed by a lazily matched bracketed group;
a dot in the pattern matches any character except a newline, so the group
is the text from the bracket up to the first closing bracket with no
newline in between, and the search tries each starting position from the
left. -/

/-- Characters of the literal marker, a quoted captionTracks key followed by
a colon. -/
def captionMarker : List Char := ('"' :: "captionTracks".toList) ++ ['"', ':']

/-- Boolean prefix test on character lists. -/
def charsHasPre : List Char → List Char → Bool
  | [], _ => true
  | _ :: _, [] => false
  | a :: as, b :: bs => a = b && charsHasPre as bs

/-- Lazy scan for the closing bracket of the group: the shortest run of
non-newline characters ending at a closing square bracket.  Returns the
characters strictly between the brackets. -/
def scanGroupBody : List Char → Option (List Char)
  | [] => none
  | ']' :: _ => some []
  | '\n' :: _ => none
  | c :: rest => (scanGroupBody rest).map (fun mid => c :: mid)

/-- Attempt the whole pattern at the current position. -/
def tryMarkerAt (cs : List Char) : Option String :=
  if charsHasPre captionMarker cs then
    match cs.drop captionMarker.length with
    | '[' :: rest => (scanGroupBody rest).map (fun mid => String.mk ('[' :: mid ++ [']']))
    | _ => none
  else none

/-- Search every starting position from the left, as re.search does. -/
def searchMarker : List Char → Option String
  | [] => tryMarkerAt []
  | c :: rest =>
    match tryMarkerAt (c :: rest) with
    | some g => some g
    | none => searchMarker rest

/-- Model of re.search of the captionTracks pattern over the watch-page
markup, returning the first capture group (the bracketed JSON text). -/
def findCaptionTracks (html : String) : Option String :=
  searchMarker html.toList

/-! ## XML documents

Model of the parsed caption payload.  Only what the fetcher reads is kept:
the local part of each element tag (the findall patterns match by local
name in any namespace), the text immediately following the start tag
before the first child (the ElementTree text attribute), and the child
elements in document order.  Attribute values and text after children
(tail text) are parsed for well-formedness but discarded, since the code
never reads them. -/

inductive XmlElem where
  | node (tag : String) (text : Option String) (children : List XmlElem)

def XmlElem.tag : XmlElem → String
  | .node t _ _ => t

def XmlElem.text : XmlElem → Option String
  | .node _ t _ => t

def XmlElem.children : XmlElem → List XmlElem
  | .node _ _ c => c

mutual

/-- All proper descendants of an element in document order, the elements
that a findall over a descendant path returns. -/
def descOf : XmlElem → List XmlElem
  | .node _ _ cs => descList cs

/-- Descendants-or-self of a list of elements in document order. -/
def descList : List XmlElem → List XmlElem
  | [] => []
  | c :: rest => c :: (descOf c ++ descList rest)

end

/-! ## XML text parsing

Model of xml.etree.ElementTree.fromstring restricted to what caption
payloads contain: nested elements with attributes, character data, the
predefined entities and numeric character references, comments and
processing instructions.  A parse failure is returned as none, the event
that the code catches as an ET.ParseError.  Simplifications, none of which
any claim depends on: DOCTYPE declarations and CDATA sections are rejected
rather than processed, name characters are the ASCII name characters, and
namespace prefixes are not checked against xmlns declarations (the tag is
reduced to its local part, which is all the findall patterns inspect). -/

def xmlWsCh (c : Char) : Bool :=
  c = ' ' || c = '\t' || c = '\n' || c = '\r'

def isNameCh (c : Char) : Bool :=
  c.isAlpha || c.isDigit || c = '_' || c = '-' || c = '.' || c = ':'

/-- Local part of a possibly prefixed XML name. -/
def localPart (n : List Char) : List Char :=
  ((n.reverse).takeWhile (fun c => c ≠ ':')).reverse

/-- Decode one entity or character reference after the ampersand. -/
def parseEntity : List Char → Option (Char × List Char)
  | 'a' :: 'm' :: 'p' :: ';' :: r => some ('&', r)
  | 'a' :: 'p' :: 'o' :: 's' :: ';' :: r => some ('\'', r)
  | 'l' :: 't' :: ';' :: r => some ('<', r)
  | 'g' :: 't' :: ';' :: r => some ('>', r)
  | 'q' :: 'u' :: 'o' :: 't' :: ';' :: r => some ('"', r)
  | '#' :: 'x' :: r =>
    let p := List.span (fun c => (hexVal c).isSome) r
    match p.1, p.2 with
    | [], _ => none
    | ds, ';' :: r2 =>
      some (Char.ofNat (ds.foldl (fun a c => a * 16 + ((hexVal c).getD 0)) 0), r2)
    | _, _ => none
  | '#' :: r =>
    let p := List.span isDigitCh r
    match p.1, p.2 with
    | [], _ => none
    | ds, ';' :: r2 => some (Char.ofNat (digitsToNat ds), r2)
    | _, _ => none
  | _ => none

/-- Skip the remainder of a comment after the opening marker. -/
def skipComment : List Char → Option (List Char)
  | '-' :: '-' :: '>' :: r => some r
  | _ :: rest => skipComment rest
  | [] => none

/-- Skip the remainder of a processing instruction after the opening
marker. -/
def skipPI : List Char → Option (List Char)
  | '?' :: '>' :: r => some r
  | _ :: rest => skipPI rest
  | [] => none

/-- Skip the attribute list of a start tag; returns whether the tag is
self-closing together with the remainder after the closing angle
bracket. -/
def skipAttrs : Nat → List Char → Option (Bool × List Char)
  | 0, _ => none
  | fuel + 1, cs =>
    let cs1 := cs.dropWhile xmlWsCh
    match cs1 with
    | '>' :: r => some (false, r)
    | '/' :: '>' :: r => some (true, r)
    | c :: _ =>
      if isNameCh c then
        let p := List.span isNameCh cs1
        let cs2 := p.2.dropWhile xmlWsCh
        match cs2 with
        | '=' :: cs3 =>
          match cs3.dropWhile xmlWsCh with
          | '"' :: r =>
            let q := List.span (fun ch => ch ≠ '"') r
            match q.2 with
            | '"' :: r2 => skipAttrs fuel r2
            | _ => none
          | '\'' :: r =>
            let q := List.span (fun ch => ch ≠ '\'') r
            match q.2 with
            | '\'' :: r2 => skipAttrs fuel r2
            | _ => none
          | _ => none
        | _ => none
      else none
    | [] => none

mutual

/-- Parse one element; the input starts just after the opening angle
bracket of its start tag. -/
def parseXElement : Nat → List Char → Option (XmlElem × List Char)
  | 0, _ => none
  | fuel + 1, cs =>
    let p := List.span isNameCh cs
    if p.1.isEmpty then none
    else
      match skipAttrs (cs.length + 2) p.2 with
      | none => none
      | some (true, r) => some (.node (String.mk (localPart p.1)) none [], r)
      | some (false, r) => parseXContent fuel p.1 [] false [] r

/-- Parse element content up to the matching end tag.  The text before the
first child is accumulated; character data after a child is validated and
discarded, as the code never reads tail text. -/
def parseXContent : Nat → List Char → List Char → Bool → List XmlElem → List Char →
    Option (XmlElem × List Char)
  | 0, _, _, _, _, _ => none
  | fuel + 1, nm, preText, sawChild, childrenRev, cs =>
    match cs with
    | '<' :: '/' :: r =>
      let p := List.span isNameCh r
      if p.1 = nm then
        match p.2.dropWhile xmlWsCh with
        | '>' :: r2 =>
          let text : Option String :=
            if preText.isEmpty then none else some (String.mk preText.reverse)
          some (.node (String.mk (localPart nm)) text childrenRev.reverse, r2)
        | _ => none
      else none
    | '<' :: '!' :: '-' :: '-' :: r =>
      match skipComment r with
      | none => none
      | some r2 => parseXContent fuel nm preText sawChild childrenRev r2
    | '<' :: '?' :: r =>
      match skipPI r with
      | none => none
      | some r2 => parseXContent fuel nm preText sawChild childrenRev r2
    | '<' :: '!' :: _ => none
    | '<' :: r =>
      match parseXElement fuel r with
      | none => none
      | some (child, r2) => parseXContent fuel nm preText true (child :: childrenRev) r2
    | '&' :: r =>
      match parseEntity r with
      | none => none
      | some (c, r2) =>
        if sawChild then parseXContent fuel nm preText sawChild childrenRev r2
        else parseXContent fuel nm (c :: preText) sawChild childrenRev r2
    | c :: r =>
      if sawChild then parseXContent fuel nm preText sawChild childrenRev r
      else parseXContent fuel nm (c :: preText) sawChild childrenRev r
    | [] => none

end

/-- Skip whitespace, comments and processing instructions outside the root
element. -/
def skipXMisc : Nat → List Char → Option (List Char)
  | 0, _ => none
  | fuel + 1, cs =>
    let cs1 := cs.dropWhile xmlWsCh
    match cs1 with
    | '<' :: '?' :: r =>
      match skipPI r with
      | none => none
      | some r2 => skipXMisc fuel r2
    | '<' :: '!' :: '-' :: '-' :: r =>
      match skipComment r with
      | none => none
      | some r2 => skipXMisc fuel r2
    | _ => some cs1

/-- Model of ET.fromstring: parse a complete document and return its root
element; none models the ParseError that the code catches. -/
def parseXmlDoc (s : String) : Option XmlElem :=
  let cs := s.toList
  match skipXMisc (cs.length + 4) cs with
  | none => none
  | some cs1 =>
    match cs1 with
    | '<' :: r =>
      match parseXElement (4 * cs.length + 64) r with
      | none => none
      | some (root, rest) =>
        match skipXMisc (rest.length + 4) rest with
        | some [] => some root
        | _ => none
    | _ => none

/-! ## Transcript text extraction

Translation of the XML processing shared verbatim by both variants
(normal/tools.py lines 116-128, custom/tools.py lines 46-52): collect every
descendant element whose local name is text; if there are none, fall back
to every descendant element whose local name is p; keep the non-empty text
contents, join them with newlines and strip the result. -/

/-- Caption lines: the Python list comprehension over the chosen findall
result, keeping only truthy text attributes. -/
def captionLines (root : XmlElem) : List String :=
  let textElems := (descOf root).filter (fun e => e.tag = "text")
  let chosen := if textElems.isEmpty then (descOf root).filter (fun e => e.tag = "p") else textElems
  (chosen.filterMap XmlElem.text).filter (fun s => s ≠ "")

/-- Joined and stripped transcript text, the full_transcript variable of
both variants. -/
def extractTranscriptText (root : XmlElem) : String :=
  pyStrip (String.intercalate "\n" (captionLines root))

/-- Degraded raw-content result, the identical f-string of both variants:
a label, the first 1000 characters of the raw payload, and an ellipsis. -/
def rawMsg (video_id foundLang body : String) : String :=
  "Transcript for " ++ video_id ++ " (" ++ foundLang ++ ") (raw content):\n"
    ++ body.take 1000 ++ "..."

/-- Payload processing of the decorator-registered variant (normal/tools.py
lines 116-133): parsed non-empty text is returned bare; a parse failure or
empty text yields the raw-content result. -/
def parsePayloadNormal (video_id foundLang body : String) : String :=
  match parseXmlDoc body with
  | none => rawMsg video_id foundLang body
  | some root =>
    let full := extractTranscriptText root
    if full = "" then rawMsg video_id foundLang body else full

/-- Payload processing of the manually-schema variant (custom/tools.py
lines 46-53): identical except that parsed non-empty text is returned
behind a header naming the video and resolved language. -/
def parsePayloadCustom (video_id foundLang body : String) : String :=
  match parseXmlDoc body with
  | none => rawMsg video_id foundLang body
  | some root =>
    let full := extractTranscriptText root
    if full = "" then rawMsg video_id foundLang body
    else "Transcript for " ++ video_id ++ " (" ++ foundLang ++ "):\n" ++ full

/-! ## HTTP environment and Python exceptions -/

/-- Per-request timeout, in seconds, passed to the HTTP client by both
variants. -/
def clientTimeoutSeconds : Nat := 15

/-- Outcome of one outbound HTTP call as observed by the caller: a response
with a status and a body, a timeout (the call did not complete within
clientTimeoutSeconds, surfaced as httpx.TimeoutException), or a
connection-level failure (httpx.RequestError). -/
inductive HttpResult where
  | ok (status : Nat) (body : String)
  | timeout
  | netFailure
deriving DecidableEq

/-- Environment of a single fetch: the response the watch-page GET would
produce, and the response the caption-payload GET would produce if it is
issued. -/
structure NetEnv where
  watch : HttpResult
  caption : HttpResult

/-- Exceptions of the Python code that the embedding distinguishes. -/
inductive PyExc where
  | timeoutException
  | httpStatusError (status : Nat)
  | requestError
  | valueError (msg : String)
  | typeError
  | attributeError
  | indexError
deriving DecidableEq

/-- Model of response.raise_for_status: an exception is raised exactly for
a 4xx or 5xx status; redirects are followed by the client, so only final
statuses appear here. -/
def isErrorStatus (status : Nat) : Bool := 400 ≤ status

/-! ## Caption-track decoding stage

Shared verbatim by both variants (normal/tools.py lines 53-74,
custom/tools.py lines 24-30): locate the marker, decode the JSON, and
reject an empty sequence.  The group captured by the marker pattern begins
with a square bracket, so a successful decode is always an array; a decode
to anything else is folded into the decode-failure outcome. -/

inductive TracksOutcome where
  | noMarker
  | badJson
  | emptyTracks
  | ok (tracks : List Json)

def extractTracksStage (html : String) : TracksOutcome :=
  match findCaptionTracks html with
  | none => .noMarker
  | some groupText =>
    match jsonParse groupText with
    | some (Json.arr items) => if items.isEmpty then .emptyTracks else .ok items
    | _ => .badJson

/-! ## Track selection

Shared verbatim by both variants (normal/tools.py lines 76-107,
custom/tools.py lines 31-42).  Each scan evaluates track.get on every
element it visits, so a non-object element raises an AttributeError at the
moment it is reached; the embedding reproduces that by scanning lazily. -/

/-- One scan loop over the decoded track list: the first track whose
languageCode value equals the requested language code. -/
def scanForLang (tracks : List Json) (lang : String) : Except PyExc (Option Json) :=
  match tracks with
  | [] => .ok none
  | t :: rest =>
    match t with
    | .obj fields =>
      if jsonIsStrEq (lookupLast fields "languageCode") lang then .ok (some t)
      else scanForLang rest lang
    | _ => .error .attributeError

/-- Track selection: exact language match, then the English fallback when
the requested language is not English, then the first track.  Indexing an
empty list raises an IndexError in Python; the callers guard that case by
rejecting an empty sequence earlier. -/
def selectTargetTrack (tracks : List Json) (language : String) : Except PyExc Json :=
  match scanForLang tracks language with
  | .error e => .error e
  | .ok (some t) => .ok t
  | .ok none =>
    match (if language ≠ "en" then scanForLang tracks "en" else .ok none) with
    | .error e => .error e
    | .ok (some t) => .ok t
    | .ok none =>
      match tracks with
      | [] => .error .indexError
      | t :: _ => .ok t

/-- Boolean substring test on character lists. -/
def charsHasSub (needle hay : List Char) : Bool :=
  match hay with
  | [] => charsHasPre needle []
  | _ :: rest => charsHasPre needle hay || charsHasSub needle rest

/-- Model of the Python membership test key in container for the values a
JSON decode can produce: key lookup on a dict, substring test on a string,
element equality on a list, and a TypeError otherwise. -/
def pyContains (container : Json) (key : String) : Except PyExc Bool :=
  match container with
  | .obj fields => .ok (fields.any (fun p => p.1 = key))
  | .str s => .ok (charsHasSub key.toList s.toList)
  | .arr items => .ok (items.any (fun v => jsonIsStrEq (some v) key))
  | _ => .error .typeError

/-- Model of dict.get with one argument: defined on objects only, an
AttributeError otherwise. -/
def pyGet (container : Json) (key : String) : Except PyExc (Option Json) :=
  match container with
  | .obj fields => .ok (lookupLast fields key)
  | _ => .error .attributeError

/-- Model of dict.get with a default: defined on objects only. -/
def pyGetD (container : Json) (key : String) (dflt : Json) : Except PyExc Json :=
  match container with
  | .obj fields => .ok ((lookupLast fields key).getD dflt)
  | _ => .error .attributeError

/-- Rendering of a JSON value inside an f-string, the Python str
conversion.  The string, null and boolean cases are exact; numeric and
container values are approximated, and no claim depends on them since a
languageCode that reaches rendering is a string or absent. -/
def pyStr : Json → String
  | .str s => s
  | .null => "None"
  | .bool true => "True"
  | .bool false => "False"
  | .num q => toString q
  | .arr _ => "<list>"
  | .obj _ => "<dict>"

/-- Failure of the selection-and-URL-resolution stage: either the
missing-URL condition that each variant reports in its own wording, or a
propagating Python exception. -/
inductive SelFail where
  | noUrl
  | exc (e : PyExc)

/-- Selection and URL resolution, shared verbatim by both variants
(normal/tools.py lines 76-107, custom/tools.py lines 31-42): select a
track, apply the truthiness-or-missing-key check that guards the URL, and
read the URL value and the resolved language code.  A scanned track always
carries a languageCode key and is therefore a truthy dict, so the
truthiness half of the guard only matters for the first-track fallback. -/
def selectAndResolveUrl (tracks : List Json) (language : String) :
    Except SelFail (Json × String) :=
  match selectTargetTrack tracks language with
  | .error e => .error (.exc e)
  | .ok target =>
    if pyTruthy target = false then .error .noUrl
    else
      match pyContains target "baseUrl" with
      | .error e => .error (.exc e)
      | .ok has =>
        if has = false then .error .noUrl
        else
          match pyGet target "baseUrl" with
          | .error e => .error (.exc e)
          | .ok urlOpt =>
            match pyGetD target "languageCode" (Json.str "unknown") with
            | .error e => .error (.exc e)
            | .ok langJson => .ok (urlOpt.getD Json.null, pyStr langJson)

/-! ## The decorator-registered variant

Translation of get_youtube_transcript (normal/tools.py lines 24-157).  The
function is async Python returning a string and raising typed exceptions on
failure; the embedding returns the raised exception or the returned string,
paired with a flag recording whether the second HTTP GET was issued.  The
try/except chain at the end of the source catches each exception class only
to re-raise it, so it is the identity on outcomes. -/

def noMarkerMsgNormal : String :=
  "Could not find captionTracks JSON in HTML. The video might not have captions, or the page structure might have changed."

def badJsonMsgNormal (video_id : String) : String :=
  "Failed to parse transcript data for video " ++ video_id ++ "."

def noTracksMsgNormal (video_id : String) : String :=
  "No caption tracks found for video " ++ video_id ++ "."

def noUrlMsgNormal (video_id language : String) : String :=
  "Could not find a suitable transcript URL for video " ++ video_id
    ++ " (language: " ++ language ++ ")."

/-- Second GET and payload processing of the decorator-registered variant
(normal/tools.py lines 110-133). -/
def normalAfterSecond (video_id foundLang : String) (resp : HttpResult) :
    Except PyExc String :=
  match resp with
  | .timeout => .error .timeoutException
  | .netFailure => .error .requestError
  | .ok status2 body =>
    if isErrorStatus status2 then .error (.httpStatusError status2)
    else .ok (parsePayloadNormal video_id foundLang body)

/-- Issuance of the second GET in the decorator-registered variant: a
non-string URL value raises a TypeError inside the client before any
request goes out. -/
def normalAfterSelect (video_id : String) (urlJson : Json) (foundLang : String)
    (cap : HttpResult) : Except PyExc String × Bool :=
  match urlJson with
  | .str _ => (normalAfterSecond video_id foundLang cap, true)
  | _ => (.error .typeError, false)

/-- Continuation of the decorator-registered variant after the caption
tracks have been decoded (normal/tools.py lines 59-133). -/
def normalAfterTracks (video_id language : String) (cap : HttpResult) :
    TracksOutcome → Except PyExc String × Bool
  | .noMarker => (.error (.valueError noMarkerMsgNormal), false)
  | .badJson => (.error (.valueError (badJsonMsgNormal video_id)), false)
  | .emptyTracks => (.error (.valueError (noTracksMsgNormal video_id)), false)
  | .ok tracks =>
    match selectAndResolveUrl tracks language with
    | .error (.exc e) => (.error e, false)
    | .error .noUrl => (.error (.valueError (noUrlMsgNormal video_id language)), false)
    | .ok (urlJson, foundLang) => normalAfterSelect video_id urlJson foundLang cap

def get_youtube_transcript (video_id language : String) (net : NetEnv) :
    Except PyExc String × Bool :=
  match net.watch with
  | .timeout => (.error .timeoutException, false)
  | .netFailure => (.error .requestError, false)
  | .ok status html =>
    if isErrorStatus status then (.error (.httpStatusError status), false)
    else normalAfterTracks video_id language net.caption (extractTracksStage html)

/-! ## The manually-schema variant

Translation of _fetch_and_parse_transcript (custom/tools.py lines 9-57).
The try body either returns a string outright (every content-level outcome
is an early string return) or lets a transport or unexpected exception
propagate to the except chain, which converts it to an error string; the
function therefore always returns a string. -/

/-- Second GET and payload processing of the manually-schema variant
(custom/tools.py lines 43-53). -/
def customAfterSecond (video_id foundLang : String) (resp : HttpResult) :
    Except PyExc String :=
  match resp with
  | .timeout => .error .timeoutException
  | .netFailure => .error .requestError
  | .ok status2 body =>
    if isErrorStatus status2 then .error (.httpStatusError status2)
    else .ok (parsePayloadCustom video_id foundLang body)

/-- Issuance of the second GET in the manually-schema variant. -/
def customAfterSelect (video_id : String) (urlJson : Json) (foundLang : String)
    (cap : HttpResult) : Except PyExc String × Bool :=
  match urlJson with
  | .str _ => (customAfterSecond video_id foundLang cap, true)
  | _ => (.error .typeError, false)

/-- Continuation of the manually-schema variant after the caption tracks
have been decoded (custom/tools.py lines 26-53): content-level failures
are early string returns rather than raised exceptions. -/
def customAfterTracks (video_id language : String) (cap : HttpResult) :
    TracksOutcome → Except PyExc String × Bool
  | .noMarker =>
    (.ok ("Error: Could not find transcript data for video " ++ video_id ++ "."), false)
  | .badJson =>
    (.ok ("Error: Failed to parse transcript data for video " ++ video_id ++ "."), false)
  | .emptyTracks =>
    (.ok ("Error: No caption tracks found for video " ++ video_id ++ "."), false)
  | .ok tracks =>
    match selectAndResolveUrl tracks language with
    | .error (.exc e) => (.error e, false)
    | .error .noUrl =>
      (.ok ("Error: Could not find a suitable transcript URL for video " ++ video_id
        ++ " (language: " ++ language ++ ")."), false)
    | .ok (urlJson, foundLang) => customAfterSelect video_id urlJson foundLang cap

/-- Body of the try block of _fetch_and_parse_transcript: an Except value
models the exceptions that reach the except chain, paired with the
second-GET flag. -/
def fetchBodyCustom (video_id language : String) (net : NetEnv) :
    Except PyExc String × Bool :=
  match net.watch with
  | .timeout => (.error .timeoutException, false)
  | .netFailure => (.error .requestError, false)
  | .ok status html =>
    if isErrorStatus status then (.error (.httpStatusError status), false)
    else customAfterTracks video_id language net.caption (extractTracksStage html)

/-- Rendering of the textual form of an exception inside an f-string; the
message text of library-raised exceptions is approximated, and no claim
depends on it. -/
def pyExcText : PyExc → String
  | .timeoutException => "TimeoutException"
  | .httpStatusError status => "HTTPStatusError " ++ toString status
  | .requestError => "RequestError"
  | .valueError msg => msg
  | .typeError => "TypeError"
  | .attributeError => "AttributeError"
  | .indexError => "IndexError"

/-- Rendering of the class name of an exception, the Python expression
type(e).__name__. -/
def pyExcTypeName : PyExc → String
  | .timeoutException => "TimeoutException"
  | .httpStatusError _ => "HTTPStatusError"
  | .requestError => "RequestError"
  | .valueError _ => "ValueError"
  | .typeError => "TypeError"
  | .attributeError => "AttributeError"
  | .indexError => "IndexError"

/-- Except chain of _fetch_and_parse_transcript (custom/tools.py lines
54-57): every exception class is converted to an error string, the final
clause catching everything. -/
def customExcMsg (video_id : String) : PyExc → String
  | .timeoutException => "Error: Request timed out for video " ++ video_id ++ "."
  | .httpStatusError status =>
    "Error: HTTP error " ++ toString status ++ " for video " ++ video_id ++ "."
  | .requestError => "Error: Network error for video " ++ video_id ++ "."
  | e => "Error: Unexpected error for video " ++ video_id ++ ": " ++ pyExcText e

/-- Wrapping of the try body by the except chain: a returned string passes
through, an escaped exception is converted to its error string. -/
def catchCustom (video_id : String) (p : Except PyExc String × Bool) : String × Bool :=
  match p with
  | (.ok s, issued) => (s, issued)
  | (.error e, issued) => (customExcMsg video_id e, issued)

def _fetch_and_parse_transcript (video_id language : String) (net : NetEnv) :
    String × Bool :=
  catchCustom video_id (fetchBodyCustom video_id language net)

/-! ## The schema-style invocation surface

Translation of GetTranscriptArgs, invoke_get_transcript and the FunctionTool
construction (custom/tools.py lines 61-123). -/

structure GetTranscriptArgs where
  video_id : String
  language : String
deriving DecidableEq

/-- Modelled external library behaviour: pydantic model_validate_json for
GetTranscriptArgs.  The argument text must decode as a JSON object whose
video_id and language members are strings; extra members are ignored, the
pydantic default.  The message text of a ValidationError is approximated. -/
def validateArgs (args_json : String) : Except String GetTranscriptArgs :=
  match jsonParse args_json with
  | none => .error "Invalid JSON: expected object"
  | some (.obj fields) =>
    match lookupLast fields "video_id", lookupLast fields "language" with
    | some (.str v), some (.str l) => .ok ⟨v, l⟩
    | _, _ => .error "validation error for GetTranscriptArgs"
  | some _ => .error "Input should be a valid dictionary"

/-- Body of the outer try block of invoke_get_transcript: validation
failure is caught inline and converted to a message, otherwise the core
fetch runs; the core fetch itself never raises, so the body always carries
a string. -/
def invokeBody (args_json : String) (net : NetEnv) : Except PyExc String :=
  match validateArgs args_json with
  | .error msg =>
    .ok ("Error: Invalid parameters provided for transcript tool. Details: " ++ msg)
  | .ok args =>
    .ok (_fetch_and_parse_transcript args.video_id args.language net).1

/-- Outer except chain of invoke_get_transcript (custom/tools.py lines
91-108), converting any escaped exception to a localized message. -/
def invokeExcMsg : PyExc → String
  | .timeoutException => "Yêu cầu lấy transcript bị quá thời gian chờ. Vui lòng thử lại."
  | .httpStatusError status =>
    "Lỗi HTTP " ++ toString status
      ++ " khi cố gắng lấy transcript. Vui lòng kiểm tra lại ID video hoặc thử lại sau."
  | .requestError =>
    "Lỗi mạng khi cố gắng lấy transcript: RequestError. Vui lòng kiểm tra kết nối và thử lại."
  | .valueError msg => "Lỗi xử lý dữ liệu transcript: " ++ msg
  | e =>
    "Đã xảy ra lỗi không mong muốn trong quá trình xử lý transcript: "
      ++ pyExcTypeName e ++ "."

def invoke_get_transcript (args_json : String) (net : NetEnv) : String :=
  match invokeBody args_json net with
  | .ok s => s
  | .error e => invokeExcMsg e

/-! ## The declared parameter schema -/

/-- Shape of the JSON schema handed to the FunctionTool: property names
with their declared types, the required list, and the additionalProperties
flag. -/
structure ParamsSchema where
  type : String
  properties : List (String × String)
  required : List String
  additionalProperties : Bool
deriving DecidableEq

/-- The schema produced by GetTranscriptArgs.model_json_schema (line 113):
an object schema with string properties video_id and language, both
required.  Pydantic emits no additionalProperties key, and an absent key
means additional properties are allowed. -/
def modelJsonSchema : ParamsSchema :=
  { type := "object"
    properties := [("video_id", "string"), ("language", "string")]
    required := ["video_id", "language"]
    additionalProperties := true }

/-- The schema actually registered on the tool after line 115 sets
additionalProperties to false. -/
def paramsSchema : ParamsSchema :=
  { modelJsonSchema with additionalProperties := false }

/-- Modelled from the spec: JSON-Schema acceptance of an argument object
against the declared schema, the validation the spec says rejects a
violating argument object.  An instance conforms when it is an object, has
every required member, every member declared with type string is a string,
and, when additional properties are disallowed, has no undeclared
member. -/
def schemaAccepts (sch : ParamsSchema) (j : Json) : Bool :=
  match j with
  | .obj fields =>
    sch.required.all (fun k => fields.any (fun p => p.1 = k)) &&
    fields.all (fun p =>
      match (sch.properties.filter (fun q => q.1 = p.1)).head? with
      | some q => if q.2 = "string" then (match p.2 with | .str _ => true | _ => false) else true
      | none => sch.additionalProperties)
  | _ => false

/-! ## Spec-side descriptions used for comparison -/

/-- Test used by both scan loops: the track is a record whose languageCode
value is the given language code. -/
def trackHasLang (t : Json) (lang : String) : Bool :=
  match t with
  | .obj fields => jsonIsStrEq (lookupLast fields "languageCode") lang
  | _ => false

/-- Modelled from the spec: the track-selection precedence as the spec
states it, a track whose language code equals the requested language if
one exists, otherwise a track whose language code is en when the requested
language is not en, otherwise the first track of the sequence. -/
def specSelectTrack (tracks : List Json) (language : String) : Option Json :=
  match tracks.find? (fun t => trackHasLang t language) with
  | some t => some t
  | none =>
    if language = "en" then tracks.head?
    else
      match tracks.find? (fun t => trackHasLang t "en") with
      | some t => some t
      | none => tracks.head?

/-- Modelled from the amended spec sentence for the extraction step: the
transcript text is built from the text content of every descendant element
with local name text when at least one such element exists, and otherwise
from every descendant element with local name p, the available contents
joined with newlines and the result stripped. -/
def amendedTextOrP (root : XmlElem) : String :=
  let textElems := (descOf root).filter (fun e => e.tag = "text")
  let pElems := (descOf root).filter (fun e => e.tag = "p")
  let contents :=
    ((if textElems.isEmpty then pElems else textElems).filterMap XmlElem.text).filter
      (fun s => s ≠ "")
  pyStrip (String.intercalate "\n" contents)

/-! ## Helper lemmas on track selection -/

theorem scanForLang_eq_find (tracks : List Json) (lang : String)
    (h : tracks.all isObjB = true) :
    scanForLang tracks lang = .ok (tracks.find? (fun t => trackHasLang t lang)) := by
  induction tracks with
  | nil => rfl
  | cons t rest ih =>
    rw [List.all_cons, Bool.and_eq_true] at h
    obtain ⟨h1, h2⟩ := h
    cases t with
    | obj fields =>
      by_cases hm : jsonIsStrEq (lookupLast fields "languageCode") lang = true
      · simp [scanForLang, List.find?, trackHasLang, hm]
      · simp only [Bool.not_eq_true] at hm
        simp [scanForLang, List.find?, trackHasLang, hm, ih h2]
    | null => simp [isObjB] at h1
    | bool b => simp [isObjB] at h1
    | num q => simp [isObjB] at h1
    | str s => simp [isObjB] at h1
    | arr items => simp [isObjB] at h1

theorem selectTargetTrack_eq_spec (tracks : List Json) (language : String)
    (hne : tracks ≠ []) (h : tracks.all isObjB = true) :
    ∃ t, specSelectTrack tracks language = some t ∧
      selectTargetTrack tracks language = .ok t := by
  obtain ⟨t0, rest, rfl⟩ : ∃ t0 rest, tracks = t0 :: rest := by
    cases tracks with
    | nil => exact absurd rfl hne
    | cons a l => exact ⟨a, l, rfl⟩
  unfold selectTargetTrack specSelectTrack
  rw [scanForLang_eq_find _ language h]
  cases hf : (t0 :: rest).find? (fun t => trackHasLang t language) with
  | some t => exact ⟨t, rfl, rfl⟩
  | none =>
    by_cases hen : language = "en"
    · simp [hen, List.head?]
    · have hne2 : (language ≠ "en") = True := by simp [hen]
      simp only [hne2, if_true, hen, if_false]
      rw [scanForLang_eq_find _ "en" h]
      cases hf2 : (t0 :: rest).find? (fun t => trackHasLang t "en") with
      | some t => exact ⟨t, rfl, rfl⟩
      | none => simp [List.head?]

theorem selectTargetTrack_mem (tracks : List Json) (language : String) (t : Json)
    (h : selectTargetTrack tracks language = .ok t) : t ∈ tracks := by
  unfold selectTargetTrack at h
  cases h1 : scanForLang tracks language with
  | error e => rw [h1] at h; cases h
  | ok o1 =>
    rw [h1] at h
    have scanMem : ∀ (l : List Json) (lg : String) (x : Json),
        scanForLang l lg = .ok (some x) → x ∈ l := by
      intro l lg
      induction l with
      | nil => intro x hx; cases hx
      | cons a as ih =>
        intro x hx
        cases a with
        | obj fields =>
          by_cases hm : jsonIsStrEq (lookupLast fields "languageCode") lg = true
          · simp [scanForLang, hm] at hx
            simp [hx]
          · simp only [Bool.not_eq_true] at hm
            simp [scanForLang, hm] at hx
            exact List.mem_cons_of_mem _ (ih x hx)
        | null => simp [scanForLang] at hx
        | bool b => simp [scanForLang] at hx
        | num q => simp [scanForLang] at hx
        | str s => simp [scanForLang] at hx
        | arr items => simp [scanForLang] at hx
    cases o1 with
    | some x => cases h; exact scanMem _ _ _ h1
    | none =>
      by_cases hen : language ≠ "en"
      · simp only [if_pos hen] at h
        cases h2 : scanForLang tracks "en" with
        | error e => rw [h2] at h; cases h
        | ok o2 =>
          rw [h2] at h
          cases o2 with
          | some x => cases h; exact scanMem _ _ _ h2
          | none =>
            cases tracks with
            | nil => cases h
            | cons a as => cases h; exact List.mem_cons_self _ _
      · simp only [if_neg hen] at h
        cases tracks with
        | nil => cases h
        | cons a as => cases h; exact List.mem_cons_self _ _

theorem find?_sat {α : Type} (p : α → Bool) (l : List α) (a : α)
    (h : l.find? p = some a) : p a = true := by
  induction l with
  | nil => cases h
  | cons x xs ih =>
    by_cases hx : p x = true
    · rw [List.find?_cons_of_pos _ hx] at h
      cases h
      exact hx
    · simp only [Bool.not_eq_true] at hx
      rw [List.find?_cons_of_neg _ (by simp [hx])] at h
      exact ih h

theorem jsonIsStrEq_inv (v : Option Json) (s : String)
    (h : jsonIsStrEq v s = true) : v = some (Json.str s) := by
  match v with
  | none => simp [jsonIsStrEq] at h
  | some .null => simp [jsonIsStrEq] at h
  | some (.bool b) => simp [jsonIsStrEq] at h
  | some (.num q) => simp [jsonIsStrEq] at h
  | some (.str t) => simp [jsonIsStrEq] at h; rw [h]
  | some (.arr items) => simp [jsonIsStrEq] at h
  | some (.obj fields) => simp [jsonIsStrEq] at h

/-! ## Concrete examples used as evidence -/

/-- Caption track with a French language code and a fetch URL. -/
def frTrack : Json := .obj [("languageCode", .str "fr"), ("baseUrl", .str "uf")]

/-- Caption track with an English language code and a fetch URL. -/
def enTrack : Json := .obj [("languageCode", .str "en"), ("baseUrl", .str "ue")]

/-- Caption track with a French language code and no URL. -/
def frTrackBare : Json := .obj [("languageCode", .str "fr")]

/-- Caption track with a German language code and no URL. -/
def deTrackBare : Json := .obj [("languageCode", .str "de")]

/-- Caption track lacking a language-code field. -/
def noLangTrack : Json := .obj [("baseUrl", .str "un")]

/-- Watch-page markup embedding a single English caption track. -/
def exHtmlEn : String :=
  "<html>\"captionTracks\":[\x7b\"languageCode\":\"en\",\"baseUrl\":\"https://cap\"\x7d]</html>"

/-- Caption payload with two text elements. -/
def exXmlHello : String := "<transcript><text>Hello</text><text>world</text></transcript>"

/-- Environment in which both HTTP calls succeed and the payload parses. -/
def exNetGood : NetEnv := ⟨.ok 200 exHtmlEn, .ok 200 exXmlHello⟩

/-! ## Claims -/

/-- C1: for every non-empty caption-track sequence and every requested
language code, the selected track follows the precedence exact match,
then English fallback when the requested language is not en, then the
first track; in particular tracks fr,en with requested vi select en, and
tracks fr,de with requested vi select the first (fr) track. -/
theorem c1_selection_precedence :
    (∀ (tracks : List Json) (language : String), tracks ≠ [] →
      tracks.all isObjB = true →
      ∃ t, specSelectTrack tracks language = some t ∧
        selectTargetTrack tracks language = .ok t) ∧
    selectTargetTrack [frTrack, enTrack] "vi" = .ok enTrack ∧
    selectTargetTrack [frTrackBare, deTrackBare] "vi" = .ok frTrackBare := by
  refine ⟨fun tracks language hne hall => selectTargetTrack_eq_spec tracks language hne hall,
    rfl, rfl⟩

/-- C1 witness: the general precedence statement applied to the concrete
two-track sequence fr,en with requested vi. -/
theorem c1_selection_precedence_witness :
    ∃ t, specSelectTrack [frTrack, enTrack] "vi" = some t ∧
      selectTargetTrack [frTrack, enTrack] "vi" = .ok t :=
  c1_selection_precedence.1 [frTrack, enTrack] "vi" (List.cons_ne_nil _ _) rfl

/-- C8: for every non-empty sequence of caption-track records the selection
step is total, always selecting a track without an error, and the stage
that follows it can only either report the missing-URL condition or
resolve a URL, so the missing-URL failure arises only after a track has
been selected. -/
theorem c8_selection_total :
    ∀ (tracks : List Json) (language : String), tracks ≠ [] →
      tracks.all isObjB = true →
      ∃ t, selectTargetTrack tracks language = .ok t ∧
        (selectAndResolveUrl tracks language = .error .noUrl ∨
         ∃ url fl, selectAndResolveUrl tracks language = .ok (url, fl)) := by
  intro tracks language hne hall
  obtain ⟨t, _, hsel⟩ := selectTargetTrack_eq_spec tracks language hne hall
  refine ⟨t, hsel, ?_⟩
  have hmem := selectTargetTrack_mem tracks language t hsel
  have hobj : isObjB t = true := by
    rw [List.all_eq_true] at hall
    exact hall t hmem
  obtain ⟨fields, rfl⟩ : ∃ fs, t = Json.obj fs := by
    cases t with
    | obj fs => exact ⟨fs, rfl⟩
    | null => simp [isObjB] at hobj
    | bool b => simp [isObjB] at hobj
    | num q => simp [isObjB] at hobj
    | str s => simp [isObjB] at hobj
    | arr items => simp [isObjB] at hobj
  unfold selectAndResolveUrl
  rw [hsel]
  by_cases hemp : fields.isEmpty
  · left
    simp [pyTruthy, hemp]
  · by_cases hhas : fields.any (fun p => p.1 = "baseUrl")
    · right
      simp [pyTruthy, hemp, pyContains, hhas, pyGet, pyGetD]
    · left
      simp only [Bool.not_eq_true] at hhas
      simp [pyTruthy, hemp, pyContains, hhas]

/-- C8 witness: totality of selection on the concrete singleton English
track. -/
theorem c8_selection_total_witness :
    ∃ t, selectTargetTrack [enTrack] "en" = .ok t ∧
      (selectAndResolveUrl [enTrack] "en" = .error .noUrl ∨
       ∃ url fl, selectAndResolveUrl [enTrack] "en" = .ok (url, fl)) :=
  c8_selection_total [enTrack] "en" (List.cons_ne_nil _ _) rfl

/-- C10: each scan loop selects the first track in sequence order whose
language code matches, and any track it selects carries a string
language-code field equal to the scanned code, so a track lacking the
field is never selected by either scan. -/
theorem c10_scan_first_match :
    ∀ (tracks : List Json) (lang : String), tracks.all isObjB = true →
      scanForLang tracks lang = .ok (tracks.find? (fun t => trackHasLang t lang)) ∧
      (∀ t, tracks.find? (fun t => trackHasLang t lang) = some t →
        ∃ fields, t = Json.obj fields ∧
          lookupLast fields "languageCode" = some (Json.str lang)) := by
  intro tracks lang hall
  refine ⟨scanForLang_eq_find tracks lang hall, ?_⟩
  intro t hfind
  have hp : trackHasLang t lang = true := find?_sat (fun t => trackHasLang t lang) tracks t hfind
  cases t with
  | obj fields =>
    exact ⟨fields, rfl, jsonIsStrEq_inv _ _ hp⟩
  | null => simp [trackHasLang] at hp
  | bool b => simp [trackHasLang] at hp
  | num q => simp [trackHasLang] at hp
  | str s => simp [trackHasLang] at hp
  | arr items => simp [trackHasLang] at hp

/-- C10 witness: the scan over a duplicate-language sequence with a
leading record lacking the language-code field returns the first English
record. -/
theorem c10_scan_first_match_witness :
    scanForLang [noLangTrack, enTrack, .obj [("languageCode", .str "en")]] "en" =
      .ok ([noLangTrack, enTrack, .obj [("languageCode", .str "en")]].find?
        (fun t => trackHasLang t "en")) :=
  (c10_scan_first_match [noLangTrack, enTrack, .obj [("languageCode", .str "en")]] "en" rfl).1

/-- C4: whenever the embedded caption-track JSON decodes to an empty
sequence, both variants fail with the no-captions classification and the
second HTTP GET is never issued. -/
theorem c4_empty_tracks_no_second_call :
    ∀ (video_id language : String) (net : NetEnv) (status : Nat) (html groupText : String),
      net.watch = .ok status html → isErrorStatus status = false →
      findCaptionTracks html = some groupText →
      jsonParse groupText = some (Json.arr []) →
      get_youtube_transcript video_id language net =
        (.error (.valueError (noTracksMsgNormal video_id)), false) ∧
      _fetch_and_parse_transcript video_id language net =
        ("Error: No caption tracks found for video " ++ video_id ++ ".", false) := by
  intro video_id language net status html groupText hw hs hf hj
  have hstage : extractTracksStage html = .emptyTracks := by
    unfold extractTracksStage
    simp [hf, hj]
  constructor
  · unfold get_youtube_transcript
    rw [hw]
    simp [hs, hstage, normalAfterTracks]
  · unfold _fetch_and_parse_transcript fetchBodyCustom
    rw [hw]
    simp [hs, hstage, customAfterTracks, catchCustom]

/-- C4 witness: the empty-sequence behaviour on a concrete watch page whose
markup embeds an empty caption-track array. -/
theorem c4_empty_tracks_no_second_call_witness :
    get_youtube_transcript "abc" "vi" ⟨.ok 200 "x\"captionTracks\":[]y", .ok 200 exXmlHello⟩ =
      (.error (.valueError (noTracksMsgNormal "abc")), false) ∧
    _fetch_and_parse_transcript "abc" "vi" ⟨.ok 200 "x\"captionTracks\":[]y", .ok 200 exXmlHello⟩ =
      ("Error: No caption tracks found for video abc.", false) :=
  c4_empty_tracks_no_second_call "abc" "vi"
    ⟨.ok 200 "x\"captionTracks\":[]y", .ok 200 exXmlHello⟩ 200 "x\"captionTracks\":[]y" "[]"
    rfl rfl rfl rfl

/-- C6: when the watch-page call times out, both variants fail with the
timeout classification and the caption-payload call is never issued; the
configured per-request bound is 15 seconds, and the second call is only
ever issued after the first has completed with a successful status. -/
theorem c6_first_call_timeout :
    (∀ (video_id language : String) (net : NetEnv), net.watch = .timeout →
      get_youtube_transcript video_id language net = (.error .timeoutException, false) ∧
      _fetch_and_parse_transcript video_id language net =
        ("Error: Request timed out for video " ++ video_id ++ ".", false)) ∧
    clientTimeoutSeconds = 15 ∧
    (∀ (video_id language : String) (net : NetEnv),
      ((get_youtube_transcript video_id language net).2 = true ∨
       (_fetch_and_parse_transcript video_id language net).2 = true) →
      ∃ status html, net.watch = .ok status html ∧ isErrorStatus status = false) := by
  refine ⟨?_, rfl, ?_⟩
  · intro video_id language net hw
    constructor
    · unfold get_youtube_transcript
      rw [hw]
    · unfold _fetch_and_parse_transcript fetchBodyCustom
      rw [hw]
      rfl
  · intro video_id language net hsecond
    obtain ⟨w, cap⟩ := net
    cases w with
    | timeout =>
      rcases hsecond with h | h
      · exact absurd h (by unfold get_youtube_transcript; simp)
      · exact absurd h (by unfold _fetch_and_parse_transcript fetchBodyCustom; simp [catchCustom])
    | netFailure =>
      rcases hsecond with h | h
      · exact absurd h (by unfold get_youtube_transcript; simp)
      · exact absurd h (by unfold _fetch_and_parse_transcript fetchBodyCustom; simp [catchCustom])
    | ok status html =>
      refine ⟨status, html, rfl, ?_⟩
      by_cases hs : isErrorStatus status = true
      · exfalso
        rcases hsecond with h | h
        · revert h
          unfold get_youtube_transcript
          simp [hs]
        · revert h
          unfold _fetch_and_parse_transcript fetchBodyCustom
          simp [hs, catchCustom]
      · simpa using hs

/-- C6 witness: the timeout behaviour on a concrete environment whose
watch-page call times out. -/
theorem c6_first_call_timeout_witness :
    get_youtube_transcript "abc" "vi" ⟨.timeout, .ok 200 exXmlHello⟩ =
      (.error .timeoutException, false) ∧
    _fetch_and_parse_transcript "abc" "vi" ⟨.timeout, .ok 200 exXmlHello⟩ =
      ("Error: Request timed out for video abc.", false) :=
  c6_first_call_timeout.1 "abc" "vi" ⟨.timeout, .ok 200 exXmlHello⟩ rfl

/-- C2: a caption payload that fails to parse as XML, or parses but yields
no non-empty text lines, produces the degraded raw-content result in both
variants rather than a failure: the labeled first 1000 characters of the
raw payload; in particular a concrete fetch whose payload is not XML
returns that degraded result with no exception. -/
theorem c2_degraded_raw_result :
    (∀ (video_id foundLang body : String),
      (parseXmlDoc body = none ∨
       ∃ root, parseXmlDoc body = some root ∧ captionLines root = []) →
      parsePayloadNormal video_id foundLang body = rawMsg video_id foundLang body ∧
      parsePayloadCustom video_id foundLang body = rawMsg video_id foundLang body ∧
      rawMsg video_id foundLang body =
        "Transcript for " ++ video_id ++ " (" ++ foundLang ++ ") (raw content):\n"
          ++ body.take 1000 ++ "...") ∧
    get_youtube_transcript "v" "en" ⟨.ok 200 exHtmlEn, .ok 200 "this is not xml"⟩ =
      (.ok (rawMsg "v" "en" "this is not xml"), true) ∧
    _fetch_and_parse_transcript "v" "en" ⟨.ok 200 exHtmlEn, .ok 200 "this is not xml"⟩ =
      (rawMsg "v" "en" "this is not xml", true) := by
  refine ⟨?_, rfl, rfl⟩
  intro video_id foundLang body h
  rcases h with hnone | ⟨root, hroot, hlines⟩
  · unfold parsePayloadNormal parsePayloadCustom
    rw [hnone]
    exact ⟨rfl, rfl, rfl⟩
  · have hempty : extractTranscriptText root = "" := by
      unfold extractTranscriptText
      rw [hlines]
      rfl
    refine ⟨?_, ?_, rfl⟩
    · unfold parsePayloadNormal
      rw [hroot]
      exact if_pos hempty
    · unfold parsePayloadCustom
      rw [hroot]
      exact if_pos hempty

/-- C2 witness: the degraded-result statement applied to a concrete payload
that is not valid XML. -/
theorem c2_degraded_raw_result_witness :
    parsePayloadNormal "v" "en" "this is not xml" = rawMsg "v" "en" "this is not xml" ∧
    parsePayloadCustom "v" "en" "this is not xml" = rawMsg "v" "en" "this is not xml" ∧
    rawMsg "v" "en" "this is not xml" =
      "Transcript for " ++ "v" ++ " (" ++ "en" ++ ") (raw content):\n"
        ++ ("this is not xml" : String).take 1000 ++ "..." :=
  c2_degraded_raw_result.1 "v" "en" "this is not xml" (Or.inl rfl)

/-- Caption payload containing one text element and one p element. -/
def c5Payload : String := "<transcript><text>a</text><p>b</p></transcript>"

/-- Parse result of c5Payload. -/
def c5Root : XmlElem :=
  .node "transcript" none [.node "text" (some "a") [], .node "p" (some "b") []]

/-- Parse result of exXmlHello. -/
def helloRoot : XmlElem :=
  .node "transcript" none [.node "text" (some "Hello") [], .node "text" (some "world") []]

theorem extractTranscriptText_eq_amended (root : XmlElem) :
    extractTranscriptText root = amendedTextOrP root := rfl

/-- C5 counterexample: for the payload with one text element holding a and
one p element holding b, the concatenation of the text contents of every
text or p element is a newline b, but the extraction returns only a,
because the p elements are consulted only when no text element exists; the
full fetch on this payload likewise returns a. -/
theorem c5_text_or_p_counterexample :
    parseXmlDoc c5Payload = some c5Root ∧
    String.intercalate "\n"
      (((descOf c5Root).filter (fun e => e.tag = "text" || e.tag = "p")).filterMap
        XmlElem.text) = "a\nb" ∧
    extractTranscriptText c5Root = "a" ∧
    ("a" : String) ≠ "a\nb" ∧
    (get_youtube_transcript "v" "en" ⟨.ok 200 exHtmlEn, .ok 200 c5Payload⟩).1 = .ok "a" := by
  refine ⟨rfl, rfl, rfl, ?_, rfl⟩
  decide

/-- C5 amended: for every caption payload that parses as XML, the
transcript text is the text content of every text element (matched by
local name) when at least one text element exists, and otherwise of every
p element, concatenated with newline separators and trimmed; the payload
with the two text elements Hello and world yields Hello newline world. -/
theorem c5_amended_extraction :
    (∀ (video_id foundLang body : String) (root : XmlElem),
      parseXmlDoc body = some root → amendedTextOrP root ≠ "" →
      parsePayloadNormal video_id foundLang body = amendedTextOrP root ∧
      parsePayloadCustom video_id foundLang body =
        "Transcript for " ++ video_id ++ " (" ++ foundLang ++ "):\n" ++ amendedTextOrP root) ∧
    (get_youtube_transcript "v" "en" exNetGood).1 = .ok "Hello\nworld" := by
  refine ⟨?_, rfl⟩
  intro video_id foundLang body root hroot hne
  have hext : extractTranscriptText root = amendedTextOrP root :=
    extractTranscriptText_eq_amended root
  constructor
  · unfold parsePayloadNormal
    rw [hroot]
    show (if extractTranscriptText root = "" then rawMsg video_id foundLang body
      else extractTranscriptText root) = amendedTextOrP root
    rw [hext, if_neg hne]
  · unfold parsePayloadCustom
    rw [hroot]
    show (if extractTranscriptText root = "" then rawMsg video_id foundLang body
      else "Transcript for " ++ video_id ++ " (" ++ foundLang ++ "):\n"
        ++ extractTranscriptText root) =
      "Transcript for " ++ video_id ++ " (" ++ foundLang ++ "):\n" ++ amendedTextOrP root
    rw [hext, if_neg hne]

/-- C5 witness: the amended extraction statement applied to the concrete
Hello world payload. -/
theorem c5_amended_extraction_witness :
    parsePayloadNormal "v" "en" exXmlHello = amendedTextOrP helloRoot ∧
    parsePayloadCustom "v" "en" exXmlHello =
      "Transcript for " ++ "v" ++ " (" ++ "en" ++ "):\n" ++ amendedTextOrP helloRoot :=
  c5_amended_extraction.1 "v" "en" exXmlHello helloRoot rfl (by decide)

theorem parsePayload_rel (video_id foundLang body : String) :
    parsePayloadCustom video_id foundLang body = parsePayloadNormal video_id foundLang body ∨
    parsePayloadCustom video_id foundLang body =
      "Transcript for " ++ video_id ++ " (" ++ foundLang ++ "):\n"
        ++ parsePayloadNormal video_id foundLang body := by
  unfold parsePayloadNormal parsePayloadCustom
  cases hx : parseXmlDoc body with
  | none => left; rfl
  | some root =>
    by_cases hfull : extractTranscriptText root = ""
    · left
      show (if extractTranscriptText root = "" then rawMsg video_id foundLang body
        else "Transcript for " ++ video_id ++ " (" ++ foundLang ++ "):\n"
          ++ extractTranscriptText root) =
        (if extractTranscriptText root = "" then rawMsg video_id foundLang body
          else extractTranscriptText root)
      rw [if_pos hfull, if_pos hfull]
    · right
      show (if extractTranscriptText root = "" then rawMsg video_id foundLang body
        else "Transcript for " ++ video_id ++ " (" ++ foundLang ++ "):\n"
          ++ extractTranscriptText root) =
        "Transcript for " ++ video_id ++ " (" ++ foundLang ++ "):\n"
          ++ (if extractTranscriptText root = "" then rawMsg video_id foundLang body
            else extractTranscriptText root)
      rw [if_neg hfull, if_neg hfull]

/-- C3 counterexample: on an environment where both variants succeed and
the payload parses, the decorator-registered variant returns the bare
transcript text while the manually-schema variant returns the same text
behind a header, so the success-path results are not the same string. -/
theorem c3_same_result_counterexample :
    (get_youtube_transcript "v" "en" exNetGood).1 = .ok "Hello\nworld" ∧
    (_fetch_and_parse_transcript "v" "en" exNetGood).1 = "Transcript for v (en):\nHello\nworld" ∧
    ("Transcript for v (en):\nHello\nworld" : String) ≠ "Hello\nworld" := by
  refine ⟨rfl, rfl, ?_⟩
  decide

/-- C3 amended: the two variants share the fetch algorithm, issue or skip
the second HTTP GET identically, and compute the same transcript text on
the success path, except that the manually-schema variant wraps the fully
parsed success text in a header naming the video and resolved language
(the degraded raw-content result is the identical string in both), while
failures are exposed as propagated typed errors in one and
caught-and-stringified messages in the other. -/
theorem catchCustom_snd (video_id : String) (p : Except PyExc String × Bool) :
    (catchCustom video_id p).2 = p.2 := by
  obtain ⟨r, issued⟩ := p
  cases r with
  | ok s => rfl
  | error e => rfl

theorem catchCustom_fst_ok (video_id : String) (p : Except PyExc String × Bool)
    (s : String) (h : p.1 = .ok s) : (catchCustom video_id p).1 = s := by
  obtain ⟨r, issued⟩ := p
  cases r with
  | ok t =>
    have : t = s := Except.ok.inj h
    rw [catchCustom, this]
  | error e => exact Except.noConfusion h

theorem afterSecond_rel (video_id foundLang : String) (cap : HttpResult) (s : String)
    (h : normalAfterSecond video_id foundLang cap = .ok s) :
    customAfterSecond video_id foundLang cap = .ok s ∨
    ∃ fl, customAfterSecond video_id foundLang cap =
      .ok ("Transcript for " ++ video_id ++ " (" ++ fl ++ "):\n" ++ s) := by
  cases cap with
  | timeout => simp [normalAfterSecond] at h
  | netFailure => simp [normalAfterSecond] at h
  | ok status2 body =>
    by_cases hs2 : isErrorStatus status2 = true
    · simp [normalAfterSecond, hs2] at h
    · simp only [normalAfterSecond, if_neg hs2, Except.ok.injEq] at h
      simp only [customAfterSecond, if_neg hs2, Except.ok.injEq]
      rcases parsePayload_rel video_id foundLang body with hc | hc
      · left
        rw [hc, h]
      · right
        exact ⟨foundLang, by rw [hc, h]⟩

theorem afterTracks_rel (video_id language : String) (cap : HttpResult)
    (st : TracksOutcome) :
    (normalAfterTracks video_id language cap st).2 =
      (customAfterTracks video_id language cap st).2 ∧
    (∀ s, (normalAfterTracks video_id language cap st).1 = .ok s →
      ((customAfterTracks video_id language cap st).1 = .ok s ∨
       ∃ fl, (customAfterTracks video_id language cap st).1 =
         .ok ("Transcript for " ++ video_id ++ " (" ++ fl ++ "):\n" ++ s))) := by
  cases st with
  | noMarker => exact ⟨rfl, fun s h => Except.noConfusion h⟩
  | badJson => exact ⟨rfl, fun s h => Except.noConfusion h⟩
  | emptyTracks => exact ⟨rfl, fun s h => Except.noConfusion h⟩
  | ok tracks =>
    cases hsel : selectAndResolveUrl tracks language with
    | error f =>
      have hn : normalAfterTracks video_id language cap (.ok tracks) =
          (match f with
           | .exc e => (Except.error e, false)
           | .noUrl => (Except.error (PyExc.valueError (noUrlMsgNormal video_id language)), false)) := by
        cases f <;> simp [normalAfterTracks, hsel]
      have hc : customAfterTracks video_id language cap (.ok tracks) =
          (match f with
           | .exc e => (Except.error e, false)
           | .noUrl => (Except.ok ("Error: Could not find a suitable transcript URL for video "
               ++ video_id ++ " (language: " ++ language ++ ")."), false)) := by
        cases f <;> simp [customAfterTracks, hsel]
      rw [hn, hc]
      cases f with
      | noUrl => exact ⟨rfl, fun s h => Except.noConfusion h⟩
      | exc e => exact ⟨rfl, fun s h => Except.noConfusion h⟩
    | ok pr =>
      obtain ⟨urlJson, foundLang⟩ := pr
      have hn : normalAfterTracks video_id language cap (.ok tracks) =
          normalAfterSelect video_id urlJson foundLang cap := by
        simp [normalAfterTracks, hsel]
      have hc : customAfterTracks video_id language cap (.ok tracks) =
          customAfterSelect video_id urlJson foundLang cap := by
        simp [customAfterTracks, hsel]
      rw [hn, hc]
      cases urlJson with
      | str u =>
        refine ⟨rfl, fun s h => ?_⟩
        have h2 : normalAfterSecond video_id foundLang cap = .ok s := h
        rcases afterSecond_rel video_id foundLang cap s h2 with hrel | ⟨fl, hrel⟩
        · left
          show customAfterSecond video_id foundLang cap = Except.ok s
          exact hrel
        · right
          refine ⟨fl, ?_⟩
          show customAfterSecond video_id foundLang cap =
            Except.ok ("Transcript for " ++ video_id ++ " (" ++ fl ++ "):\n" ++ s)
          exact hrel
      | null => exact ⟨rfl, fun s h => Except.noConfusion h⟩
      | bool b => exact ⟨rfl, fun s h => Except.noConfusion h⟩
      | num q => exact ⟨rfl, fun s h => Except.noConfusion h⟩
      | arr items => exact ⟨rfl, fun s h => Except.noConfusion h⟩
      | obj fields => exact ⟨rfl, fun s h => Except.noConfusion h⟩

theorem c3_variants_related :
    ∀ (video_id language : String) (net : NetEnv),
      (get_youtube_transcript video_id language net).2 =
        (_fetch_and_parse_transcript video_id language net).2 ∧
      ∀ s, (get_youtube_transcript video_id language net).1 = .ok s →
        ((_fetch_and_parse_transcript video_id language net).1 = s ∨
         ∃ fl, (_fetch_and_parse_transcript video_id language net).1 =
           "Transcript for " ++ video_id ++ " (" ++ fl ++ "):\n" ++ s) := by
  intro video_id language net
  obtain ⟨w, cap⟩ := net
  cases w with
  | timeout =>
    constructor
    · simp [get_youtube_transcript, _fetch_and_parse_transcript, fetchBodyCustom, catchCustom]
    · intro s h
      simp [get_youtube_transcript] at h
  | netFailure =>
    constructor
    · simp [get_youtube_transcript, _fetch_and_parse_transcript, fetchBodyCustom, catchCustom]
    · intro s h
      simp [get_youtube_transcript] at h
  | ok status html =>
    by_cases hs : isErrorStatus status = true
    · constructor
      · simp [get_youtube_transcript, _fetch_and_parse_transcript, fetchBodyCustom,
          catchCustom, hs]
      · intro s h
        simp [get_youtube_transcript, hs] at h
    · have hn : get_youtube_transcript video_id language ⟨.ok status html, cap⟩ =
          normalAfterTracks video_id language cap (extractTracksStage html) := by
        simp [get_youtube_transcript, hs]
      have hcu : _fetch_and_parse_transcript video_id language ⟨.ok status html, cap⟩ =
          catchCustom video_id
            (customAfterTracks video_id language cap (extractTracksStage html)) := by
        simp [_fetch_and_parse_transcript, fetchBodyCustom, hs]
      rw [hn, hcu]
      obtain ⟨hflag, hok⟩ := afterTracks_rel video_id language cap (extractTracksStage html)
      constructor
      · rw [catchCustom_snd]
        exact hflag
      · intro s h
        rcases hok s h with hrel | ⟨fl, hrel⟩
        · left
          exact catchCustom_fst_ok video_id _ s hrel
        · right
          exact ⟨fl, catchCustom_fst_ok video_id _ _ hrel⟩

/-- C3 witness: the relation applied at the concrete success environment,
where the manual variant output is the normal variant output behind the
header. -/
theorem c3_variants_related_witness :
    (_fetch_and_parse_transcript "v" "en" exNetGood).1 = "Hello\nworld" ∨
    ∃ fl, (_fetch_and_parse_transcript "v" "en" exNetGood).1 =
      "Transcript for " ++ "v" ++ " (" ++ fl ++ "):\n" ++ "Hello\nworld" :=
  (c3_variants_related "v" "en" exNetGood).2 "Hello\nworld" rfl

/-- C7: for every argument string passed to the schema-style invocation and
every outcome of the underlying fetch supplied by the environment, the
invocation returns a plain string: the try body always carries a string,
so no exception ever reaches the outer handler or escapes the boundary. -/
theorem c7_invoke_always_string :
    ∀ (args_json : String) (net : NetEnv), ∃ s : String,
      invokeBody args_json net = .ok s ∧ invoke_get_transcript args_json net = s := by
  intro args_json net
  cases hv : validateArgs args_json with
  | error m =>
    refine ⟨"Error: Invalid parameters provided for transcript tool. Details: " ++ m, ?_, ?_⟩
    · simp [invokeBody, hv]
    · simp [invoke_get_transcript, invokeBody, hv]
  | ok args =>
    refine ⟨(_fetch_and_parse_transcript args.video_id args.language net).1, ?_, ?_⟩
    · simp [invokeBody, hv]
    · simp [invoke_get_transcript, invokeBody, hv]

/-- Argument text with valid required fields plus an additional property. -/
def c9ExtraArgs : String :=
  "\x7b\"video_id\":\"v\",\"language\":\"en\",\"extra\":\"x\"\x7d"

/-- Decoded form of c9ExtraArgs. -/
def c9ExtraObj : Json :=
  .obj [("video_id", .str "v"), ("language", .str "en"), ("extra", .str "x")]

/-- C9 counterexample: an argument object with an additional property
violates the declared schema, yet the local validation accepts it and the
fetch is invoked, returning the transcript rather than an error message. -/
theorem c9_schema_counterexample :
    jsonParse c9ExtraArgs = some c9ExtraObj ∧
    schemaAccepts paramsSchema c9ExtraObj = false ∧
    validateArgs c9ExtraArgs = .ok ⟨"v", "en"⟩ ∧
    invoke_get_transcript c9ExtraArgs exNetGood =
      (_fetch_and_parse_transcript "v" "en" exNetGood).1 ∧
    invoke_get_transcript c9ExtraArgs exNetGood = "Transcript for v (en):\nHello\nworld" :=
  ⟨rfl, rfl, rfl, rfl, rfl⟩

/-- C9 amended: the declared schema requires exactly the string fields
video_id and language and disallows additional properties; an argument
text rejected by the local validation yields the invalid-parameters
message without invoking the fetch, while an argument object whose
required fields are valid strings passes the local validation even when it
carries additional properties disallowed by the schema, and the fetch is
invoked. -/
theorem c9_schema_amended :
    paramsSchema.required = ["video_id", "language"] ∧
    paramsSchema.properties = [("video_id", "string"), ("language", "string")] ∧
    paramsSchema.additionalProperties = false ∧
    (∀ (args_json m : String) (net : NetEnv), validateArgs args_json = .error m →
      invoke_get_transcript args_json net =
        "Error: Invalid parameters provided for transcript tool. Details: " ++ m) ∧
    (∀ (args_json : String) (fields : List (String × Json)) (v l : String) (net : NetEnv),
      jsonParse args_json = some (.obj fields) →
      lookupLast fields "video_id" = some (.str v) →
      lookupLast fields "language" = some (.str l) →
      validateArgs args_json = .ok ⟨v, l⟩ ∧
      invoke_get_transcript args_json net = (_fetch_and_parse_transcript v l net).1) := by
  refine ⟨rfl, rfl, rfl, ?_, ?_⟩
  · intro args_json m net hv
    simp [invoke_get_transcript, invokeBody, hv]
  · intro args_json fields v l net hp hv hl
    have hval : validateArgs args_json = .ok ⟨v, l⟩ := by
      simp [validateArgs, hp, hv, hl]
    refine ⟨hval, ?_⟩
    simp [invoke_get_transcript, invokeBody, hval]

/-- C9 witness: the amended acceptance statement applied to the concrete
argument text carrying an additional property. -/
theorem c9_schema_amended_witness :
    validateArgs c9ExtraArgs = .ok ⟨"v", "en"⟩ ∧
    invoke_get_transcript c9ExtraArgs exNetGood =
      (_fetch_and_parse_transcript "v" "en" exNetGood).1 :=
  c9_schema_amended.2.2.2.2 c9ExtraArgs
    [("video_id", .str "v"), ("language", .str "en"), ("extra", .str "x")] "v" "en"
    exNetGood rfl rfl rfl

end Transcript
